import Mathlib

/-! Formal model of the view-tracker service (src/app.py and src/app_viewer.py).

Timestamps are modelled as integer seconds.  The code stores them as
"YYYY-mm-dd HH:MM:SS" strings whose lexicographic order and equality agree
with the order and equality of the instants they denote, so string
comparison in the SQL queries is integer comparison here, and the one-hour
look-back computed with datetime arithmetic is subtraction of 3600.
Dates are modelled as integer day numbers.  SQL tables are modelled as
lists of rows; a query with ORDER BY timestamp DESC LIMIT 1 returns a row
of maximal timestamp among the rows matching the WHERE clause, and
fetchone on an exact-match query returns the first matching row.
Python floats holding whole microsecond counts are modelled exactly by
integers (all quantities in the scheduler are whole microseconds). -/

/-- One row of the views table: (video_id, date, timestamp, views, likes). -/
structure ViewRow where
  video_id : String
  date : Int
  timestamp : Int
  views : Int
  likes : Int
deriving DecidableEq, Repr

/-- One row of the video_list table. -/
structure VideoEntry where
  video_id : String
  name : String
  is_tracking : Bool
  comparison_video_id : Option String
deriving DecidableEq, Repr

/-- The two tables of the database. -/
structure DB where
  video_list : List VideoEntry
  views : List ViewRow
deriving DecidableEq, Repr

/-- One Snapshot-Source result for a video, as returned by fetch_views. -/
structure Stats where
  views : Int
  likes : Int
deriving DecidableEq, Repr

/-- WHERE clause of the look-back queries:
video_id = v AND date = d AND timestamp <= t. -/
def candAtOrBefore (v : String) (d t : Int) (r : ViewRow) : Bool :=
  r.video_id == v && r.date == d && decide (r.timestamp ≤ t)

/-- WHERE clause of the exact-timestamp query:
video_id = v AND date = d AND timestamp = t. -/
def exactCand (v : String) (d t : Int) (r : ViewRow) : Bool :=
  r.video_id == v && r.date == d && r.timestamp == t

/-- Keep the row of larger timestamp (the later row wins). -/
def maxStep (a r : ViewRow) : ViewRow :=
  if a.timestamp < r.timestamp then r else a

/-- Row of maximal timestamp in a list, none for the empty list. -/
def maxByTs : List ViewRow → Option ViewRow
  | [] => none
  | x :: xs => some (xs.foldl maxStep x)

/-- SELECT ... WHERE video_id = v AND date = d AND timestamp <= t
ORDER BY timestamp DESC LIMIT 1. -/
def latestRowAtOrBefore (tbl : List ViewRow) (v : String) (d t : Int) :
    Option ViewRow :=
  maxByTs (tbl.filter (candAtOrBefore v d t))

/-- SELECT ... WHERE video_id = v AND date = d AND timestamp = t, fetchone. -/
def exactRow (tbl : List ViewRow) (v : String) (d t : Int) : Option ViewRow :=
  (tbl.filter (exactCand v d t)).head?

/-- Python round(x, 2): two-decimal rounding, modelled on rationals. -/
def round2 (q : Rat) : Rat := ((⌊q * 100 + 1 / 2⌋ : Int) : Rat) / 100

/-- The 60-minute view gain of both services: views minus the views of the
latest same-date row at or before one hour earlier, 0 when there is none. -/
def view_hourly_gain (tbl : List ViewRow) (v : String) (d t vi : Int) : Int :=
  match latestRowAtOrBefore tbl v d (t - 3600) with
  | some p => vi - p.views
  | none => 0

/-- The 60-minute like gain, computed by the second look-back query. -/
def like_hourly_gain (tbl : List ViewRow) (v : String) (d t li : Int) : Int :=
  match latestRowAtOrBefore tbl v d (t - 3600) with
  | some p => li - p.likes
  | none => 0

/-- One element of the list process_view_gains returns. -/
structure Processed where
  timestamp : Int
  views : Int
  likes : Int
  view_gain : Int
  like_gain : Int
  view_hourly_gain : Int
  view_like_ratio : Rat
  like_hourly_gain : Int
  comp_view_ratio : Option Rat
deriving DecidableEq, Repr

/-- Default row used with List.getD. -/
def defaultViewRow : ViewRow :=
  { video_id := "", date := 0, timestamp := 0, views := 0, likes := 0 }

/-- Default processed element used with List.getD. -/
def defaultProcessed : Processed :=
  { timestamp := 0, views := 0, likes := 0, view_gain := 0, like_gain := 0
    view_hourly_gain := 0, view_like_ratio := 0, like_hourly_gain := 0
    comp_view_ratio := none }

/-- The enumerate loop of process_view_gains: each row is handed to the
per-row body together with the previous row of the sequence, if any. -/
def processAuxG (f : ViewRow → Option ViewRow → Processed) :
    Option ViewRow → List ViewRow → List Processed
  | _, [] => []
  | prev, r :: rest => f r prev :: processAuxG f (some r) rest

/-- Key predicate on (video_id, timestamp), the store key of the spec. -/
def keyMatch (v : String) (t : Int) (r : ViewRow) : Bool :=
  r.video_id == v && r.timestamp == t

/-- Number of rows of a table carrying a given (video_id, timestamp) key. -/
def countKey (tbl : List ViewRow) (v : String) (t : Int) : Nat :=
  (tbl.filter (keyMatch v t)).length

/-- A database connection in mid-transaction: rows already committed and
rows inserted by the open transaction but not yet committed. -/
structure Conn where
  committed : List ViewRow
  pending : List ViewRow
deriving DecidableEq, Repr

/-- ROLLBACK: the open transaction's rows are discarded. -/
def Conn.rollback (c : Conn) : Conn := { c with pending := [] }

/-- Execute app.py's plain INSERT; the Bool says whether the database
raises on this statement (connection loss, etc.). -/
def Conn.execInsertAll (c : Conn) (fail : Bool) (r : ViewRow) :
    Except Conn Conn :=
  if fail then Except.error c
  else Except.ok { c with pending := c.pending ++ [r] }

/-- Execute app_viewer.py's INSERT ... ON CONFLICT (video_id, timestamp)
DO NOTHING; the Bool says whether the database raises on this statement. -/
def Conn.execInsertIgnore (c : Conn) (fail : Bool) (r : ViewRow) :
    Except Conn Conn :=
  if fail then Except.error c
  else if (c.committed ++ c.pending).any (keyMatch r.video_id r.timestamp) then
    Except.ok c
  else Except.ok { c with pending := c.pending ++ [r] }

/-- COMMIT, which may itself raise. -/
def Conn.commitTx (c : Conn) (fail : Bool) : Except Conn Conn :=
  if fail then Except.error c
  else Except.ok { committed := c.committed ++ c.pending, pending := [] }

namespace App

/-- app.py store_views: one INSERT with the timestamp and date taken from
datetime.now at the moment of this call (now, in seconds). -/
def store_views (vid : String) (st : Stats) (now : Int)
    (tbl : List ViewRow) : List ViewRow :=
  tbl ++ [{ video_id := vid, date := now / 86400, timestamp := now,
            views := st.views, likes := st.likes }]

/-- app.py's bare INSERT INTO views, keyed by nothing (the table has only
a SERIAL primary key): the row is always appended. -/
def insert_views (tbl : List ViewRow) (r : ViewRow) : List ViewRow :=
  tbl ++ [r]

/-- app.py process_view_gains, comparison branch: previous comparison views
at or before one hour ago, comparison views at exactly this timestamp, and
the ratio only when the current comparison views are positive and the
comparison gain is nonzero. -/
def comp_view_ratio (tbl : List ViewRow) (cid : String) (d t : Int)
    (hourly : Int) : Option Rat :=
  match latestRowAtOrBefore tbl cid d (t - 3600) with
  | none => none
  | some prev =>
    match exactRow tbl cid d t with
    | none => none
    | some cur =>
      if 0 < cur.views then
        if cur.views - prev.views ≠ 0 then
          some (round2 ((hourly : Rat) / ((cur.views - prev.views : Int) : Rat)))
        else none
      else none

/-- app.py process_view_gains, body of the loop for one row. -/
def processOne (tbl : List ViewRow) (v : String) (comp : Option String)
    (row : ViewRow) (prev : Option ViewRow) : Processed :=
  { timestamp := row.timestamp
    views := row.views
    likes := row.likes
    view_gain :=
      match prev with
      | some p => if p.date = row.date then row.views - p.views else 0
      | none => 0
    like_gain :=
      match prev with
      | some p => if p.date = row.date then row.likes - p.likes else 0
      | none => 0
    view_hourly_gain := view_hourly_gain tbl v row.date row.timestamp row.views
    view_like_ratio :=
      if 0 < row.likes then round2 ((row.views : Rat) / (row.likes : Rat)) else 0
    like_hourly_gain := like_hourly_gain tbl v row.date row.timestamp row.likes
    comp_view_ratio :=
      match comp with
      | some cid =>
        comp_view_ratio tbl cid row.date row.timestamp
          (view_hourly_gain tbl v row.date row.timestamp row.views)
      | none => none }

/-- app.py process_view_gains over a date-ascending list of rows. -/
def process_view_gains (tbl : List ViewRow) (v : String)
    (comp : Option String) (rows : List ViewRow) : List Processed :=
  processAuxG (processOne tbl v comp) none rows

/-- The store loop of one poll cycle in background_tasks: store_views is
called once per resolved id, and each call reads the wall clock anew
(clock k is the time at the k-th call). -/
def store_loop (fetch : String → Option Stats) (clock : Nat → Int) :
    List String → Nat → List ViewRow → List ViewRow × Nat
  | [], k, tbl => (tbl, k)
  | vid :: rest, k, tbl =>
    match fetch vid with
    | some st => store_loop fetch clock rest (k + 1)
        (store_views vid st (clock k) tbl)
    | none => store_loop fetch clock rest k tbl

/-- One poll cycle of background_tasks: the tracked ids and the tracked
rows' comparison ids are gathered and stored in order. -/
def poll_cycle (db : DB) (fetch : String → Option Stats)
    (clock : Nat → Int) : List ViewRow :=
  (store_loop fetch clock
    (((db.video_list.filter (fun e => e.is_tracking)).map
        (fun e => e.video_id))
      ++ ((db.video_list.filter (fun e => e.is_tracking)).filterMap
        (fun e => e.comparison_video_id)))
    0 db.views).1

/-- The id batch of one poll cycle: tracked ids plus their comparison ids,
deduplicated (list(set(...)) in the code). -/
def poll_batch (db : DB) : List String :=
  (((db.video_list.filter (fun e => e.is_tracking)).map
      (fun e => e.video_id))
    ++ ((db.video_list.filter (fun e => e.is_tracking)).filterMap
      (fun e => e.comparison_video_id))).dedup

/-- SELECT comparison_video_id FROM video_list WHERE video_id = vid,
fetchone, as done at the top of remove_video. -/
def lookup_comparison (db : DB) (vid : String) : Option String :=
  match db.video_list.find? (fun e => e.video_id == vid) with
  | some e => e.comparison_video_id
  | none => none

/-- app.py remove_video: delete the registry row, delete the video's view
rows, and, when the registry row named a comparison video, delete that
comparison video's view rows too; then flash a success message. -/
def remove_video (vid : String) (db : DB) : DB × String :=
  let comp := lookup_comparison db vid
  let vl := db.video_list.filter (fun e => !(e.video_id == vid))
  let vs := db.views.filter (fun r => !(r.video_id == vid))
  let vs2 :=
    match comp with
    | some cid => vs.filter (fun r => !(r.video_id == cid))
    | none => vs
  ({ video_list := vl, views := vs2 }, "Video removed successfully.")

/-- app.py stop_tracking: UPDATE video_list SET is_tracking = FALSE. -/
def stop_tracking (vid : String) (db : DB) : DB :=
  { db with
    video_list := db.video_list.map
      (fun e => if e.video_id == vid then { e with is_tracking := false }
                else e) }

/-- The videos the index route lists: every registry row, paused or not. -/
def index_video_ids (db : DB) : List String :=
  db.video_list.map (fun e => e.video_id)

/-- The minutes_to_next adjustment of background_tasks: at an exact
5-minute mark the remaining minutes are set to 0. -/
def minutesToNext (m : Nat) : Nat :=
  if 5 - m % 5 = 5 then 0 else 5 - m % 5

/-- app.py background_tasks sleep computation, in whole microseconds:
seconds_to_wait = minutes_to_next * 60 - (second + microsecond / 1e6),
plus 300 seconds when that is not positive. -/
def seconds_to_wait_us (m s u : Nat) : Int :=
  if (minutesToNext m : Int) * 60000000 - ((s : Int) * 1000000 + (u : Int)) ≤ 0
  then (minutesToNext m : Int) * 60000000 - ((s : Int) * 1000000 + (u : Int))
    + 300000000
  else (minutesToNext m : Int) * 60000000 - ((s : Int) * 1000000 + (u : Int))

/-- app.py store_views with its try/except and rollback, against an
explicit transaction: the two Bools say whether the INSERT and the COMMIT
raise.  The except clause swallows the error and rolls back, so the
function always returns (Except.ok) to its caller. -/
def store_views_tx (r : ViewRow) (failInsert failCommit : Bool)
    (tbl : List ViewRow) : Except String (List ViewRow) :=
  match (Conn.execInsertAll { committed := tbl, pending := [] } failInsert r).bind
      (fun c => Conn.commitTx c failCommit) with
  | Except.ok c => Except.ok c.committed
  | Except.error c => Except.ok (Conn.rollback c).committed

end App

namespace Viewer

/-- app_viewer.py's INSERT ... ON CONFLICT (video_id, timestamp)
DO NOTHING: the row is appended only when no row with its key exists. -/
def insert_views (tbl : List ViewRow) (r : ViewRow) : List ViewRow :=
  if tbl.any (keyMatch r.video_id r.timestamp) then tbl else tbl ++ [r]

/-- app_viewer.py process_view_gains, comparison branch: no positivity
condition on the current comparison views, only a nonzero denominator. -/
def comp_view_ratio (tbl : List ViewRow) (cid : String) (d t : Int)
    (hourly : Int) : Option Rat :=
  match latestRowAtOrBefore tbl cid d (t - 3600) with
  | none => none
  | some prev =>
    match exactRow tbl cid d t with
    | none => none
    | some cur =>
      if cur.views - prev.views ≠ 0 then
        some (round2 ((hourly : Rat) / ((cur.views - prev.views : Int) : Rat)))
      else none

/-- app_viewer.py process_view_gains, body of the loop for one row. -/
def processOne (tbl : List ViewRow) (v : String) (comp : Option String)
    (row : ViewRow) (prev : Option ViewRow) : Processed :=
  { timestamp := row.timestamp
    views := row.views
    likes := row.likes
    view_gain :=
      match prev with
      | some p => if p.date = row.date then row.views - p.views else 0
      | none => 0
    like_gain :=
      match prev with
      | some p => if p.date = row.date then row.likes - p.likes else 0
      | none => 0
    view_hourly_gain := view_hourly_gain tbl v row.date row.timestamp row.views
    view_like_ratio :=
      if row.likes ≠ 0 then round2 ((row.views : Rat) / (row.likes : Rat)) else 0
    like_hourly_gain := like_hourly_gain tbl v row.date row.timestamp row.likes
    comp_view_ratio :=
      match comp with
      | some cid =>
        comp_view_ratio tbl cid row.date row.timestamp
          (view_hourly_gain tbl v row.date row.timestamp row.views)
      | none => none }

/-- app_viewer.py process_view_gains over a date-ascending list of rows. -/
def process_view_gains (tbl : List ViewRow) (v : String)
    (comp : Option String) (rows : List ViewRow) : List Processed :=
  processAuxG (processOne tbl v comp) none rows

/-- The videos the viewer route lists: only rows WHERE is_tracking. -/
def viewer_video_ids (db : DB) : List String :=
  (db.video_list.filter (fun e => e.is_tracking)).map (fun e => e.video_id)

/-- app_viewer.py start_background_polling sleep, in whole microseconds:
wait = (5 - minute % 5) * 60 - (second + microsecond / 1e6), plus 300
seconds when not positive, then time.sleep(max(wait, 10)). -/
def wait_us (m s u : Nat) : Int :=
  max
    (if ((5 - m % 5 : Nat) : Int) * 60000000
        - ((s : Int) * 1000000 + (u : Int)) ≤ 0
     then ((5 - m % 5 : Nat) : Int) * 60000000
        - ((s : Int) * 1000000 + (u : Int)) + 300000000
     else ((5 - m % 5 : Nat) : Int) * 60000000
        - ((s : Int) * 1000000 + (u : Int)))
    10000000

/-- app_viewer.py store_views: get_db_cursor commits on success, rolls
back and re-raises on failure, and store_views catches everything. -/
def store_views_tx (r : ViewRow) (failInsert failCommit : Bool)
    (tbl : List ViewRow) : Except String (List ViewRow) :=
  match (Conn.execInsertIgnore { committed := tbl, pending := [] } failInsert r).bind
      (fun c => Conn.commitTx c failCommit) with
  | Except.ok c => Except.ok c.committed
  | Except.error c => Except.ok (Conn.rollback c).committed

end Viewer

/-- Spec-side predicate: r is a latest sample of entity v on date d at or
before instant t (the latest-at-or-before point lookup of the spec). -/
def isLatestAtOrBefore (tbl : List ViewRow) (v : String) (d t : Int)
    (r : ViewRow) : Prop :=
  r ∈ tbl ∧ r.video_id = v ∧ r.date = d ∧ r.timestamp ≤ t ∧
    ∀ q ∈ tbl, q.video_id = v → q.date = d → q.timestamp ≤ t →
      q.timestamp ≤ r.timestamp

/-- Spec-side predicate: r is a sample of entity v on date d at exactly t. -/
def isExactAt (tbl : List ViewRow) (v : String) (d t : Int)
    (r : ViewRow) : Prop :=
  r ∈ tbl ∧ r.video_id = v ∧ r.date = d ∧ r.timestamp = t

/-- The store invariant of the spec: at most one sample per
(entity, timestamp) key. -/
def KeyUnique (tbl : List ViewRow) : Prop :=
  ∀ r1 ∈ tbl, ∀ r2 ∈ tbl,
    r1.video_id = r2.video_id → r1.timestamp = r2.timestamp → r1 = r2

instance (tbl : List ViewRow) : Decidable (KeyUnique tbl) := by
  unfold KeyUnique; infer_instance

/-- Spec-side elapsed time into the current 5-minute interval, in
microseconds. -/
def specPosInCycle (m s u : Nat) : Int :=
  ((m % 5 : Nat) : Int) * 60000000 + (s : Int) * 1000000 + (u : Int)

/-- Registry with two tracked videos A and B, no comparisons. -/
def c1DB : DB :=
  { video_list := [{ video_id := "A", name := "a", is_tracking := true,
                     comparison_video_id := none },
                   { video_id := "B", name := "b", is_tracking := true,
                     comparison_video_id := none }]
    views := [] }

/-- Snapshot Source resolving A and B. -/
def c1fetch : String → Option Stats := fun v =>
  if v == "A" then some { views := 500, likes := 10 }
  else if v == "B" then some { views := 300, likes := 5 }
  else none

/-- A wall clock that crosses a second boundary between the two
store_views calls of one cycle: the k-th call sees 12:00:00 + k. -/
def c1clock : Nat → Int := fun k => 43200 + (k : Int)

/-- A sample row used for the duplicate-insert counterexample. -/
def c2row : ViewRow :=
  { video_id := "A", date := 0, timestamp := 100, views := 5, likes := 1 }

/-- Samples of the spec's trailing-hour example: 10:00 (v=100),
10:05 (v=110), 11:00 (v=200) on one date. -/
def c3tbl : List ViewRow :=
  [{ video_id := "A", date := 0, timestamp := 36000, views := 100, likes := 5 },
   { video_id := "A", date := 0, timestamp := 36300, views := 110, likes := 6 },
   { video_id := "A", date := 0, timestamp := 39600, views := 200, likes := 7 }]

/-- A table where the comparison video B has a current value of exactly 0
at 11:00 and a base value of 10 at 10:00. -/
def c4tbl : List ViewRow :=
  [{ video_id := "A", date := 0, timestamp := 36000, views := 100, likes := 0 },
   { video_id := "A", date := 0, timestamp := 39600, views := 160, likes := 0 },
   { video_id := "B", date := 0, timestamp := 36000, views := 10, likes := 0 },
   { video_id := "B", date := 0, timestamp := 39600, views := 0, likes := 0 }]

/-- The spec's scenario table: A and B sampled at 12:00:00 and 13:00:00,
A gaining 60 and B gaining 30. -/
def c4tblW : List ViewRow :=
  [{ video_id := "A", date := 0, timestamp := 43200, views := 500, likes := 0 },
   { video_id := "A", date := 0, timestamp := 46800, views := 560, likes := 0 },
   { video_id := "B", date := 0, timestamp := 43200, views := 300, likes := 0 },
   { video_id := "B", date := 0, timestamp := 46800, views := 330, likes := 0 }]

/-- The spec's day-boundary example: (D1, 23:59:59, 100) then
(D2, 00:00:01, 101). -/
def c5rows : List ViewRow :=
  [{ video_id := "A", date := 0, timestamp := 86399, views := 100, likes := 1 },
   { video_id := "A", date := 1, timestamp := 86401, views := 101, likes := 1 }]

/-- A database where A is tracked with comparison video B, and B has one
stored sample. -/
def c7DB : DB :=
  { video_list := [{ video_id := "A", name := "a", is_tracking := true,
                     comparison_video_id := some "B" },
                   { video_id := "B", name := "b", is_tracking := true,
                     comparison_video_id := none }]
    views := [{ video_id := "B", date := 0, timestamp := 100, views := 7,
                likes := 1 }] }

/-- A database where B is paused but is the comparison video of the
tracked video A. -/
def c8DB : DB :=
  { video_list := [{ video_id := "A", name := "a", is_tracking := true,
                     comparison_video_id := some "B" },
                   { video_id := "B", name := "b", is_tracking := false,
                     comparison_video_id := none }]
    views := [{ video_id := "B", date := 0, timestamp := 100, views := 7,
                likes := 1 }] }

/-- A database with two tracked videos and no comparison pairing, used to
instantiate the amended pause property. -/
def c8DBw : DB :=
  { video_list := [{ video_id := "A", name := "a", is_tracking := true,
                     comparison_video_id := none },
                   { video_id := "B", name := "b", is_tracking := true,
                     comparison_video_id := none }]
    views := [{ video_id := "B", date := 0, timestamp := 100, views := 7,
                likes := 1 }] }

/-- A database holding only video A, used for the unknown-id removal. -/
def c9DB : DB :=
  { video_list := [{ video_id := "A", name := "a", is_tracking := true,
                     comparison_video_id := none }]
    views := [{ video_id := "A", date := 0, timestamp := 100, views := 5,
                likes := 1 }] }

/-- Indexing the enumerate loop: element i is the body applied to row i
and to its predecessor (the initial previous row for i = 0). -/
theorem processAuxG_getD (f : ViewRow → Option ViewRow → Processed)
    (dP : Processed) :
    ∀ (rows : List ViewRow) (prev : Option ViewRow) (i : Nat),
      i < rows.length →
      (processAuxG f prev rows).getD i dP
        = f (rows.getD i defaultViewRow)
            (if i = 0 then prev
             else some (rows.getD (i - 1) defaultViewRow)) := by
  intro rows
  induction rows with
  | nil => intro prev i h; simp at h
  | cons r rest ih =>
    intro prev i h
    cases i with
    | zero => simp [processAuxG]
    | succ j =>
      have hj : j < rest.length := by
        simpa [Nat.succ_lt_succ_iff] using h
      have hrec := ih (some r) j hj
      simp only [processAuxG, List.getD_cons_succ]
      rw [hrec]
      cases j with
      | zero => simp
      | succ k => simp

/-- The fold behind maxByTs yields its seed or a list element. -/
theorem foldl_maxStep_mem :
    ∀ (xs : List ViewRow) (a : ViewRow),
      xs.foldl maxStep a = a ∨ xs.foldl maxStep a ∈ xs := by
  intro xs
  induction xs with
  | nil => intro a; left; rfl
  | cons b xs ih =>
    intro a
    have hb : maxStep a b = a ∨ maxStep a b = b := by
      unfold maxStep; split
      · right; rfl
      · left; rfl
    rcases ih (maxStep a b) with h | h
    · rcases hb with hb | hb
      · left; simpa [hb] using h
      · right; rw [List.foldl_cons, h, hb]; exact List.mem_cons_self _ _
    · right; rw [List.foldl_cons]; exact List.mem_cons_of_mem _ h

/-- The fold behind maxByTs dominates its seed and every list element in
timestamp. -/
theorem foldl_maxStep_le :
    ∀ (xs : List ViewRow) (a : ViewRow),
      a.timestamp ≤ (xs.foldl maxStep a).timestamp ∧
        ∀ r ∈ xs, r.timestamp ≤ (xs.foldl maxStep a).timestamp := by
  intro xs
  induction xs with
  | nil => intro a; exact ⟨le_refl _, by intro r hr; simp at hr⟩
  | cons b xs ih =>
    intro a
    obtain ⟨h1, h2⟩ := ih (maxStep a b)
    have ha : a.timestamp ≤ (maxStep a b).timestamp := by
      unfold maxStep; split
      · omega
      · exact le_refl _
    have hbb : b.timestamp ≤ (maxStep a b).timestamp := by
      unfold maxStep; split
      · exact le_refl _
      · omega
    refine ⟨le_trans ha h1, ?_⟩
    intro r hr
    rcases List.mem_cons.mp hr with hr | hr
    · subst hr; exact le_trans hbb h1
    · exact h2 r hr

/-- What maxByTs returns is a member of maximal timestamp. -/
theorem maxByTs_spec {l : List ViewRow} {m : ViewRow}
    (h : maxByTs l = some m) :
    m ∈ l ∧ ∀ r ∈ l, r.timestamp ≤ m.timestamp := by
  cases l with
  | nil => simp [maxByTs] at h
  | cons x xs =>
    have hm : xs.foldl maxStep x = m := by
      simpa [maxByTs] using h
    obtain ⟨h1, h2⟩ := foldl_maxStep_le xs x
    constructor
    · rcases foldl_maxStep_mem xs x with he | he
      · rw [hm] at he; rw [← he]; exact List.mem_cons_self _ _
      · rw [hm] at he; exact List.mem_cons_of_mem _ he
    · intro r hr
      rcases List.mem_cons.mp hr with hr | hr
      · subst hr; rw [← hm]; exact h1
      · rw [← hm]; exact h2 r hr

/-- maxByTs returns none exactly on the empty list. -/
theorem maxByTs_eq_none {l : List ViewRow} :
    maxByTs l = none ↔ l = [] := by
  cases l <;> simp [maxByTs]

/-- The Boolean look-back filter, in propositional form. -/
theorem candAtOrBefore_iff (v : String) (d t : Int) (r : ViewRow) :
    candAtOrBefore v d t r = true ↔
      r.video_id = v ∧ r.date = d ∧ r.timestamp ≤ t := by
  simp [candAtOrBefore, Bool.and_eq_true, decide_eq_true_iff, and_assoc]

/-- The Boolean exact-match filter, in propositional form. -/
theorem exactCand_iff (v : String) (d t : Int) (r : ViewRow) :
    exactCand v d t r = true ↔
      r.video_id = v ∧ r.date = d ∧ r.timestamp = t := by
  simp [exactCand, Bool.and_eq_true, and_assoc]

/-- A row the look-back query returns is a latest at-or-before sample. -/
theorem latestRowAtOrBefore_isLatest {tbl : List ViewRow} {v : String}
    {d t : Int} {r : ViewRow}
    (h : latestRowAtOrBefore tbl v d t = some r) :
    isLatestAtOrBefore tbl v d t r := by
  obtain ⟨hmem, hmax⟩ := maxByTs_spec h
  obtain ⟨hmem', hcand⟩ := List.mem_filter.mp hmem
  obtain ⟨h1, h2, h3⟩ := (candAtOrBefore_iff v d t r).mp hcand
  refine ⟨hmem', h1, h2, h3, ?_⟩
  intro q hq hq1 hq2 hq3
  exact hmax q (List.mem_filter.mpr ⟨hq, (candAtOrBefore_iff v d t q).mpr ⟨hq1, hq2, hq3⟩⟩)

/-- Under the store key invariant, a latest at-or-before sample is what
the look-back query returns. -/
theorem isLatest_latestRowAtOrBefore {tbl : List ViewRow} {v : String}
    {d t : Int} {r : ViewRow} (hu : KeyUnique tbl)
    (h : isLatestAtOrBefore tbl v d t r) :
    latestRowAtOrBefore tbl v d t = some r := by
  obtain ⟨hmem, h1, h2, h3, hmax⟩ := h
  have hrf : r ∈ tbl.filter (candAtOrBefore v d t) :=
    List.mem_filter.mpr ⟨hmem, (candAtOrBefore_iff v d t r).mpr ⟨h1, h2, h3⟩⟩
  unfold latestRowAtOrBefore
  cases hm : maxByTs (tbl.filter (candAtOrBefore v d t)) with
  | none =>
    rw [maxByTs_eq_none] at hm
    rw [hm] at hrf
    simp at hrf
  | some m =>
    obtain ⟨hmF, hmax'⟩ := maxByTs_spec hm
    obtain ⟨hmT, hmc⟩ := List.mem_filter.mp hmF
    obtain ⟨hm1, hm2, hm3⟩ := (candAtOrBefore_iff v d t m).mp hmc
    have hts1 : m.timestamp ≤ r.timestamp := hmax m hmT hm1 hm2 hm3
    have hts2 : r.timestamp ≤ m.timestamp := hmax' r hrf
    have : m = r := hu m hmT r hmem (by rw [hm1, h1]) (by omega)
    rw [this]

/-- A row the exact-match query returns satisfies the exact predicate. -/
theorem exactRow_isExact {tbl : List ViewRow} {v : String} {d t : Int}
    {r : ViewRow} (h : exactRow tbl v d t = some r) :
    isExactAt tbl v d t r := by
  unfold exactRow at h
  cases hf : tbl.filter (exactCand v d t) with
  | nil => rw [hf] at h; simp at h
  | cons x xs =>
    rw [hf] at h
    simp only [List.head?_cons, Option.some.injEq] at h
    have hx : x ∈ tbl.filter (exactCand v d t) := by
      rw [hf]; exact List.mem_cons_self _ _
    obtain ⟨hxT, hxc⟩ := List.mem_filter.mp hx
    obtain ⟨h1, h2, h3⟩ := (exactCand_iff v d t x).mp hxc
    rw [← h]
    exact ⟨hxT, h1, h2, h3⟩

/-- Under the store key invariant, a sample at exactly t is what the
exact-match query returns. -/
theorem isExact_exactRow {tbl : List ViewRow} {v : String} {d t : Int}
    {r : ViewRow} (hu : KeyUnique tbl) (h : isExactAt tbl v d t r) :
    exactRow tbl v d t = some r := by
  obtain ⟨hmem, h1, h2, h3⟩ := h
  have hrf : r ∈ tbl.filter (exactCand v d t) :=
    List.mem_filter.mpr ⟨hmem, (exactCand_iff v d t r).mpr ⟨h1, h2, h3⟩⟩
  unfold exactRow
  cases hf : tbl.filter (exactCand v d t) with
  | nil => rw [hf] at hrf; simp at hrf
  | cons x xs =>
    have hx : x ∈ tbl.filter (exactCand v d t) := by
      rw [hf]; exact List.mem_cons_self _ _
    obtain ⟨hxT, hxc⟩ := List.mem_filter.mp hx
    obtain ⟨hx1, hx2, hx3⟩ := (exactCand_iff v d t x).mp hxc
    have : x = r := hu x hxT r hmem (by rw [hx1, h1]) (by rw [hx3, h3])
    simp [this]

/-- C1: the claim says all samples written during one poll cycle carry one
identical timestamp; in the code every store_views call reads the wall
clock itself, so a cycle whose two inserts straddle a second boundary
writes two different timestamps (here 12:00:00 and 12:00:01). -/
theorem c1_cycle_timestamps_not_shared :
    (App.poll_cycle c1DB c1fetch c1clock).map (fun r => r.timestamp)
      = [43200, 43201]
    ∧ (43200 : Int) ≠ 43201 := by
  constructor
  · decide
  · decide

/-- C2 counterexample: app.py's views table has no uniqueness constraint,
so inserting the same (entity_id, timestamp) key twice leaves two rows,
not one. -/
theorem c2_duplicate_insert_creates_second_row :
    countKey (App.insert_views (App.insert_views [] c2row) c2row) "A" 100 = 2
    ∧ ¬ countKey (App.insert_views (App.insert_views [] c2row) c2row) "A" 100
        = 1 := by
  constructor
  · decide
  · decide

/-- C2 amended: app_viewer.py's ON CONFLICT DO NOTHING insert is
idempotent (the second identical call is a no-op and the key ends up with
exactly one row), while app.py's plain INSERT appends unconditionally, so
two identical calls add two rows for the key; neither raises. -/
theorem c2_insert_idempotence_amended (tbl : List ViewRow) (r : ViewRow) :
    Viewer.insert_views (Viewer.insert_views tbl r) r = Viewer.insert_views tbl r
    ∧ countKey (Viewer.insert_views tbl r) r.video_id r.timestamp
        = (if countKey tbl r.video_id r.timestamp = 0 then 1
           else countKey tbl r.video_id r.timestamp)
    ∧ countKey (App.insert_views (App.insert_views tbl r) r)
        r.video_id r.timestamp
        = countKey tbl r.video_id r.timestamp + 2 := by
  have hkr : keyMatch r.video_id r.timestamp r = true := by
    simp [keyMatch]
  refine ⟨?_, ?_, ?_⟩
  · by_cases h : tbl.any (keyMatch r.video_id r.timestamp)
    · simp [Viewer.insert_views, h]
    · have h2 : (tbl ++ [r]).any (keyMatch r.video_id r.timestamp) = true := by
        simp [List.any_append, hkr]
      simp [Viewer.insert_views, h, h2]
  · by_cases h : tbl.any (keyMatch r.video_id r.timestamp)
    · have hne : countKey tbl r.video_id r.timestamp ≠ 0 := by
        obtain ⟨x, hx, hpx⟩ := List.any_eq_true.mp h
        have hxf : x ∈ tbl.filter (keyMatch r.video_id r.timestamp) :=
          List.mem_filter.mpr ⟨hx, hpx⟩
        unfold countKey
        intro hlen
        rw [List.length_eq_zero] at hlen
        rw [hlen] at hxf
        simp at hxf
      simp [Viewer.insert_views, h, hne]
    · have h0 : countKey tbl r.video_id r.timestamp = 0 := by
        unfold countKey
        rw [List.length_eq_zero, List.filter_eq_nil_iff]
        intro a ha hpa
        exact h (List.any_eq_true.mpr ⟨a, ha, hpa⟩)
      have hlen : (tbl.filter (keyMatch r.video_id r.timestamp)).length = 0 := h0
      rw [h0]
      simp [Viewer.insert_views, h, countKey, List.filter_append, hkr, hlen]
  · simp [App.insert_views, countKey, List.filter_append, hkr]

/-- C10: with the transaction modelled explicitly, both store_views
variants return normally whether or not the INSERT or the COMMIT raises,
and on any failure the rollback leaves the committed views table exactly
as it was; on success exactly the attempted row's effect is committed. -/
theorem c10_store_views_error_atomicity (r : ViewRow) (fi fc : Bool)
    (tbl : List ViewRow) :
    App.store_views_tx r fi fc tbl
      = Except.ok (if fi || fc then tbl else tbl ++ [r])
    ∧ Viewer.store_views_tx r fi fc tbl
      = Except.ok (if fi || fc then tbl else Viewer.insert_views tbl r) := by
  constructor
  · cases fi <;> cases fc <;>
      simp [App.store_views_tx, Conn.execInsertAll, Conn.commitTx,
        Conn.rollback, Except.bind]
  · by_cases h : tbl.any (keyMatch r.video_id r.timestamp) <;>
      cases fi <;> cases fc <;>
        simp [Viewer.store_views_tx, Conn.execInsertIgnore, Conn.commitTx,
          Conn.rollback, Viewer.insert_views, Except.bind, h]

/-- C4 counterexample: the comparison entity B has a base sample (views
10) and a sample at exactly the current timestamp (views 0), the
denominator 0 - 10 is nonzero, yet app.py yields no ratio because of its
extra positivity test on the current comparison views; app_viewer.py
yields a ratio, as the claim describes. -/
theorem c4_zero_current_value_ratio_absent :
    App.comp_view_ratio c4tbl "B" 0 39600 60 = none
    ∧ latestRowAtOrBefore c4tbl "B" 0 36000
        = some { video_id := "B", date := 0, timestamp := 36000, views := 10,
                 likes := 0 }
    ∧ exactRow c4tbl "B" 0 39600
        = some { video_id := "B", date := 0, timestamp := 39600, views := 0,
                 likes := 0 }
    ∧ ((0 : Int) - 10 ≠ 0)
    ∧ (Viewer.comp_view_ratio c4tbl "B" 0 39600 60).isSome = true := by
  refine ⟨?_, ?_, ?_, ?_, ?_⟩ <;> decide

/-- C6 counterexample: at 14:04:55 the next 5-minute boundary is 5 seconds
away, but app_viewer.py sleeps max(wait, 10) = 10 seconds, waking past the
boundary. -/
theorem c6_viewer_min_sleep_overshoots :
    Viewer.wait_us 4 55 0 = 10000000
    ∧ 300000000 - specPosInCycle 4 55 0 = 5000000
    ∧ (10000000 : Int) ≠ 5000000 := by
  refine ⟨?_, ?_, ?_⟩ <;> decide

/-- C7 counterexample: removing A, whose registry row names B as its
comparison video, also deletes B's stored sample. -/
theorem c7_remove_deletes_comparison_samples :
    (App.remove_video "A" c7DB).1.views = []
    ∧ ({ video_id := "B", date := 0, timestamp := 100, views := 7,
         likes := 1 } : ViewRow) ∈ c7DB.views
    ∧ App.lookup_comparison c7DB "A" = some "B" := by
  refine ⟨?_, ?_, ?_⟩ <;> decide

/-- C8 counterexample: B is paused, yet B is in the poll batch (it is the
comparison video of the tracked video A) and B is absent from the viewer
route's listing. -/
theorem c8_paused_entity_polled_and_hidden :
    "B" ∈ App.poll_batch c8DB
    ∧ "B" ∉ Viewer.viewer_video_ids c8DB
    ∧ (∀ e ∈ c8DB.video_list, e.video_id = "B" → e.is_tracking = false) := by
  refine ⟨?_, ?_, ?_⟩ <;> decide

/-- C9 counterexample: removing the unknown id Z flashes the success
message, not a not-found result, and leaves the database unchanged. -/
theorem c9_remove_unknown_reports_success :
    App.remove_video "Z" c9DB = (c9DB, "Video removed successfully.")
    ∧ "Z" ∉ App.index_video_ids c9DB := by
  refine ⟨?_, ?_⟩ <;> decide

/-- C6 amended: app.py's computed wait always reaches exactly the next
5-minute wall-clock boundary (300s minus the elapsed part of the current
interval, hence a full 300s when called exactly on a boundary); the
viewer's wait is the same quantity only when the boundary is at least 10
seconds away, because it sleeps max(wait, 10). -/
theorem c6_scheduler_alignment_amended (m s u : Nat) (hs : s < 60)
    (hu : u < 1000000) :
    App.seconds_to_wait_us m s u = 300000000 - specPosInCycle m s u
    ∧ (10000000 ≤ 300000000 - specPosInCycle m s u →
        Viewer.wait_us m s u = 300000000 - specPosInCycle m s u)
    ∧ App.seconds_to_wait_us 3 27 0 = 93000000
    ∧ App.seconds_to_wait_us 5 0 0 = 300000000
    ∧ Viewer.wait_us 3 27 0 = 93000000
    ∧ Viewer.wait_us 5 0 0 = 300000000 := by
  refine ⟨?_, ?_, by decide, by decide, by decide, by decide⟩
  · simp only [App.seconds_to_wait_us, App.minutesToNext, specPosInCycle]
    split_ifs <;> omega
  · intro hbig
    simp only [specPosInCycle] at hbig
    simp only [Viewer.wait_us, specPosInCycle, max_def]
    split_ifs <;> omega

/-- C6 witness: the amended scheduler property instantiated at 14:03:27. -/
theorem c6_scheduler_alignment_amended_witness :
    27 < 60 ∧ (0 : Nat) < 1000000
    ∧ (App.seconds_to_wait_us 3 27 0 = 300000000 - specPosInCycle 3 27 0
      ∧ (10000000 ≤ 300000000 - specPosInCycle 3 27 0 →
          Viewer.wait_us 3 27 0 = 300000000 - specPosInCycle 3 27 0)
      ∧ App.seconds_to_wait_us 3 27 0 = 93000000
      ∧ App.seconds_to_wait_us 5 0 0 = 300000000
      ∧ Viewer.wait_us 3 27 0 = 93000000
      ∧ Viewer.wait_us 5 0 0 = 300000000) :=
  ⟨by decide, by decide,
    c6_scheduler_alignment_amended 3 27 0 (by decide) (by decide)⟩

/-- C9 amended: removing an id that is in neither table does not crash and
does not report not-found: every delete is a no-op, the database is
returned unchanged, and the success message is flashed. -/
theorem c9_remove_unknown_amended (db : DB) (vid : String)
    (h1 : vid ∉ App.index_video_ids db)
    (h2 : ∀ r ∈ db.views, r.video_id ≠ vid) :
    App.remove_video vid db = (db, "Video removed successfully.") := by
  obtain ⟨vl, vs⟩ := db
  have hentry : ∀ e ∈ vl, e.video_id ≠ vid := by
    intro e he heq
    apply h1
    simp only [App.index_video_ids, List.mem_map]
    exact ⟨e, he, heq⟩
  have hfind : vl.find? (fun e => e.video_id == vid) = none := by
    rw [List.find?_eq_none]
    intro e he
    simp [hentry e he]
  have hvl : vl.filter (fun e => !(e.video_id == vid)) = vl := by
    rw [List.filter_eq_self]
    intro e he
    simp [hentry e he]
  have hvs : vs.filter (fun r => !(r.video_id == vid)) = vs := by
    rw [List.filter_eq_self]
    intro r hr
    simp [h2 r hr]
  simp [App.remove_video, App.lookup_comparison, hfind, hvl, hvs]

/-- C9 witness: the amended removal property instantiated on a database
holding only video A, removing the unknown id Z. -/
theorem c9_remove_unknown_amended_witness :
    "Z" ∉ App.index_video_ids c9DB
    ∧ (∀ r ∈ c9DB.views, r.video_id ≠ "Z")
    ∧ App.remove_video "Z" c9DB = (c9DB, "Video removed successfully.") :=
  ⟨by decide, by decide,
    c9_remove_unknown_amended c9DB "Z" (by decide) (by decide)⟩

/-- C7 amended: remove_video deletes the entity's registry row and its
samples and also deletes every sample of the entity's paired comparison
video; samples of all other entities are untouched and the paired video's
registry row (hence the paired entity itself) is not deleted. -/
theorem c7_remove_video_amended (db : DB) (vid : String) :
    (∀ r : ViewRow, r ∈ (App.remove_video vid db).1.views ↔
      (r ∈ db.views ∧ r.video_id ≠ vid
        ∧ App.lookup_comparison db vid ≠ some r.video_id))
    ∧ (∀ e : VideoEntry, e ∈ (App.remove_video vid db).1.video_list ↔
        (e ∈ db.video_list ∧ e.video_id ≠ vid))
    ∧ (App.remove_video vid db).2 = "Video removed successfully." := by
  refine ⟨?_, ?_, rfl⟩
  · intro r
    cases hc : App.lookup_comparison db vid with
    | none =>
      simp [App.remove_video, hc, List.mem_filter]
    | some cid =>
      simp only [App.remove_video, hc, List.mem_filter,
        Bool.not_eq_true', beq_eq_false_iff_ne, ne_eq, Option.some.injEq]
      constructor
      · rintro ⟨⟨hm, hv⟩, hcid⟩
        exact ⟨hm, hv, fun h => hcid h.symm⟩
      · rintro ⟨hm, hv, hcid⟩
        exact ⟨⟨hm, hv⟩, fun h => hcid h.symm⟩
  · intro e
    cases hc : App.lookup_comparison db vid with
    | none => simp [App.remove_video, hc, List.mem_filter]
    | some cid => simp [App.remove_video, hc, List.mem_filter]

/-- C7 witness: the amended removal semantics instantiated on the paired
database, removing A. -/
theorem c7_remove_video_amended_witness :
    (∀ r : ViewRow, r ∈ (App.remove_video "A" c7DB).1.views ↔
      (r ∈ c7DB.views ∧ r.video_id ≠ "A"
        ∧ App.lookup_comparison c7DB "A" ≠ some r.video_id))
    ∧ (∀ e : VideoEntry, e ∈ (App.remove_video "A" c7DB).1.video_list ↔
        (e ∈ c7DB.video_list ∧ e.video_id ≠ "A"))
    ∧ (App.remove_video "A" c7DB).2 = "Video removed successfully." :=
  c7_remove_video_amended c7DB "A"

/-- After stop_tracking, every registry row carrying that id is paused. -/
theorem stop_tracking_paused {db : DB} {vid : String} {e : VideoEntry}
    (he : e ∈ (App.stop_tracking vid db).video_list)
    (hid : e.video_id = vid) : e.is_tracking = false := by
  simp only [App.stop_tracking, List.mem_map] at he
  obtain ⟨o, ho, rfl⟩ := he
  by_cases h : (o.video_id == vid) = true
  · simp [h]
  · rw [if_neg h] at hid ⊢
    exact absurd hid (by simpa using h)

/-- C8 amended: pausing an entity leaves all stored samples untouched and
removes it from the poll batch provided no still-tracking entity names it
as comparison video; it stays listed by app.py's index route, but the
viewer route, which lists only tracking rows, no longer shows it. -/
theorem c8_paused_entity_amended (db : DB) (vid : String)
    (hcomp : ∀ e ∈ (App.stop_tracking vid db).video_list,
      e.is_tracking = true → e.comparison_video_id ≠ some vid) :
    (App.stop_tracking vid db).views = db.views
    ∧ vid ∉ App.poll_batch (App.stop_tracking vid db)
    ∧ App.index_video_ids (App.stop_tracking vid db)
        = App.index_video_ids db
    ∧ vid ∉ Viewer.viewer_video_ids (App.stop_tracking vid db) := by
  refine ⟨rfl, ?_, ?_, ?_⟩
  · intro hmem
    unfold App.poll_batch at hmem
    rw [List.mem_dedup] at hmem
    rcases List.mem_append.mp hmem with hmem | hmem
    · rw [List.mem_map] at hmem
      obtain ⟨e, he, hid⟩ := hmem
      rw [List.mem_filter] at he
      have h1 := stop_tracking_paused he.1 hid
      have h2 : e.is_tracking = true := he.2
      rw [h1] at h2
      simp at h2
    · rw [List.mem_filterMap] at hmem
      obtain ⟨e, he, hcv⟩ := hmem
      rw [List.mem_filter] at he
      exact hcomp e he.1 he.2 hcv
  · simp only [App.index_video_ids, App.stop_tracking, List.map_map]
    apply List.map_congr_left
    intro a ha
    by_cases h : (a.video_id == vid) = true <;> simp [Function.comp, h]
  · intro hmem
    unfold Viewer.viewer_video_ids at hmem
    rw [List.mem_map] at hmem
    obtain ⟨e, he, hid⟩ := hmem
    rw [List.mem_filter] at he
    have h1 := stop_tracking_paused he.1 hid
    have h2 : e.is_tracking = true := he.2
    rw [h1] at h2
    simp at h2

/-- C8 witness: the amended pause property instantiated on two tracked,
unpaired videos, pausing B. -/
theorem c8_paused_entity_amended_witness :
    (∀ e ∈ (App.stop_tracking "B" c8DBw).video_list,
      e.is_tracking = true → e.comparison_video_id ≠ some "B")
    ∧ ((App.stop_tracking "B" c8DBw).views = c8DBw.views
      ∧ "B" ∉ App.poll_batch (App.stop_tracking "B" c8DBw)
      ∧ App.index_video_ids (App.stop_tracking "B" c8DBw)
          = App.index_video_ids c8DBw
      ∧ "B" ∉ Viewer.viewer_video_ids (App.stop_tracking "B" c8DBw)) :=
  ⟨by decide, c8_paused_entity_amended c8DBw "B" (by decide)⟩

/-- C3: the trailing-hour gain both services compute equals value minus
the value of the latest same-entity same-date sample at or before one
hour earlier, is 0 when no such sample exists (in particular when the
look-back would cross midnight, since the candidate set is date-scoped),
is exactly what process_view_gains reports at every index, and on the
spec's example 10:00(100), 10:05(110), 11:00(200) gives 100 at 11:00. -/
theorem c3_trailing_hour_gain_correct (tbl : List ViewRow) (v : String)
    (d t vi : Int) (hu : KeyUnique tbl) :
    ((¬ ∃ r, r ∈ tbl ∧ r.video_id = v ∧ r.date = d ∧ r.timestamp ≤ t - 3600) →
        view_hourly_gain tbl v d t vi = 0)
    ∧ (∀ r, isLatestAtOrBefore tbl v d (t - 3600) r →
        view_hourly_gain tbl v d t vi = vi - r.views)
    ∧ (∀ (comp : Option String) (rows : List ViewRow) (i : Nat),
        i < rows.length →
        ((App.process_view_gains tbl v comp rows).getD i
            defaultProcessed).view_hourly_gain
          = view_hourly_gain tbl v (rows.getD i defaultViewRow).date
              (rows.getD i defaultViewRow).timestamp
              (rows.getD i defaultViewRow).views
        ∧ ((Viewer.process_view_gains tbl v comp rows).getD i
            defaultProcessed).view_hourly_gain
          = view_hourly_gain tbl v (rows.getD i defaultViewRow).date
              (rows.getD i defaultViewRow).timestamp
              (rows.getD i defaultViewRow).views)
    ∧ view_hourly_gain c3tbl "A" 0 39600 200 = 100 := by
  refine ⟨?_, ?_, ?_, by decide⟩
  · intro hne
    have hnil : tbl.filter (candAtOrBefore v d (t - 3600)) = [] := by
      rw [List.filter_eq_nil_iff]
      intro a ha hpa
      obtain ⟨h1, h2, h3⟩ := (candAtOrBefore_iff v d (t - 3600) a).mp hpa
      exact hne ⟨a, ha, h1, h2, h3⟩
    unfold view_hourly_gain latestRowAtOrBefore
    rw [hnil]
    rfl
  · intro r hr
    have h := isLatest_latestRowAtOrBefore hu hr
    unfold view_hourly_gain
    rw [h]
  · intro comp rows i hi
    constructor
    · unfold App.process_view_gains
      rw [processAuxG_getD _ _ rows none i hi]
      rfl
    · unfold Viewer.process_view_gains
      rw [processAuxG_getD _ _ rows none i hi]
      rfl

/-- C3 witness: the trailing-hour property instantiated on the spec's
three-sample table, whose store key is unique. -/
theorem c3_trailing_hour_gain_correct_witness :
    KeyUnique c3tbl
    ∧ (((¬ ∃ r, r ∈ c3tbl ∧ r.video_id = "A" ∧ r.date = 0
          ∧ r.timestamp ≤ 39600 - 3600) →
          view_hourly_gain c3tbl "A" 0 39600 200 = 0)
      ∧ (∀ r, isLatestAtOrBefore c3tbl "A" 0 (39600 - 3600) r →
          view_hourly_gain c3tbl "A" 0 39600 200 = 200 - r.views)
      ∧ (∀ (comp : Option String) (rows : List ViewRow) (i : Nat),
          i < rows.length →
          ((App.process_view_gains c3tbl "A" comp rows).getD i
              defaultProcessed).view_hourly_gain
            = view_hourly_gain c3tbl "A" (rows.getD i defaultViewRow).date
                (rows.getD i defaultViewRow).timestamp
                (rows.getD i defaultViewRow).views
          ∧ ((Viewer.process_view_gains c3tbl "A" comp rows).getD i
              defaultProcessed).view_hourly_gain
            = view_hourly_gain c3tbl "A" (rows.getD i defaultViewRow).date
                (rows.getD i defaultViewRow).timestamp
                (rows.getD i defaultViewRow).views)
      ∧ view_hourly_gain c3tbl "A" 0 39600 200 = 100) :=
  ⟨by decide, c3_trailing_hour_gain_correct c3tbl "A" 0 39600 200 (by decide)⟩

/-- C4 amended: under the store key invariant, app_viewer.py's comparison
ratio is defined exactly when the comparison entity has a latest same-date
sample at or before one hour earlier and a sample at exactly the current
timestamp with a nonzero difference, and then equals the rounded quotient;
app.py additionally requires the comparison's current value to be
positive, otherwise its ratio is absent.  Both are Options, so a zero
denominator or a missing sample yields absence, never an error. -/
theorem c4_comparison_ratio_amended (tbl : List ViewRow) (cid : String)
    (d t hourly : Int) (q : Rat) (hu : KeyUnique tbl) :
    (App.comp_view_ratio tbl cid d t hourly = some q ↔
      ∃ rb rc : ViewRow, isLatestAtOrBefore tbl cid d (t - 3600) rb
        ∧ isExactAt tbl cid d t rc
        ∧ 0 < rc.views
        ∧ rc.views - rb.views ≠ 0
        ∧ q = round2 ((hourly : Rat) / ((rc.views - rb.views : Int) : Rat)))
    ∧ (Viewer.comp_view_ratio tbl cid d t hourly = some q ↔
      ∃ rb rc : ViewRow, isLatestAtOrBefore tbl cid d (t - 3600) rb
        ∧ isExactAt tbl cid d t rc
        ∧ rc.views - rb.views ≠ 0
        ∧ q = round2 ((hourly : Rat) / ((rc.views - rb.views : Int) : Rat))) := by
  constructor
  · constructor
    · intro h
      unfold App.comp_view_ratio at h
      cases hprev : latestRowAtOrBefore tbl cid d (t - 3600) with
      | none => rw [hprev] at h; simp at h
      | some prev =>
        rw [hprev] at h
        cases hcur : exactRow tbl cid d t with
        | none => rw [hcur] at h; simp at h
        | some cur =>
          rw [hcur] at h
          dsimp only at h
          by_cases hpos : 0 < cur.views
          · rw [if_pos hpos] at h
            by_cases hg : cur.views - prev.views ≠ 0
            · rw [if_pos hg] at h
              exact ⟨prev, cur, latestRowAtOrBefore_isLatest hprev,
                exactRow_isExact hcur, hpos, hg, (Option.some.inj h).symm⟩
            · rw [if_neg hg] at h; simp at h
          · rw [if_neg hpos] at h; simp at h
    · rintro ⟨rb, rc, hL, hE, hpos, hg, hq⟩
      unfold App.comp_view_ratio
      rw [isLatest_latestRowAtOrBefore hu hL, isExact_exactRow hu hE]
      dsimp only
      rw [if_pos hpos, if_pos hg, hq]
  · constructor
    · intro h
      unfold Viewer.comp_view_ratio at h
      cases hprev : latestRowAtOrBefore tbl cid d (t - 3600) with
      | none => rw [hprev] at h; simp at h
      | some prev =>
        rw [hprev] at h
        cases hcur : exactRow tbl cid d t with
        | none => rw [hcur] at h; simp at h
        | some cur =>
          rw [hcur] at h
          dsimp only at h
          by_cases hg : cur.views - prev.views ≠ 0
          · rw [if_pos hg] at h
            exact ⟨prev, cur, latestRowAtOrBefore_isLatest hprev,
              exactRow_isExact hcur, hg, (Option.some.inj h).symm⟩
          · rw [if_neg hg] at h; simp at h
    · rintro ⟨rb, rc, hL, hE, hg, hq⟩
      unfold Viewer.comp_view_ratio
      rw [isLatest_latestRowAtOrBefore hu hL, isExact_exactRow hu hE]
      dsimp only
      rw [if_pos hg, hq]

/-- C4 witness: the amended comparison-ratio property instantiated on the
spec's scenario table at 13:00:00 with trailing gain 60 and ratio 2. -/
theorem c4_comparison_ratio_amended_witness :
    KeyUnique c4tblW
    ∧ ((App.comp_view_ratio c4tblW "B" 0 46800 60 = some 2 ↔
        ∃ rb rc : ViewRow, isLatestAtOrBefore c4tblW "B" 0 (46800 - 3600) rb
          ∧ isExactAt c4tblW "B" 0 46800 rc
          ∧ 0 < rc.views
          ∧ rc.views - rb.views ≠ 0
          ∧ (2 : Rat) = round2 ((60 : Rat)
              / ((rc.views - rb.views : Int) : Rat)))
      ∧ (Viewer.comp_view_ratio c4tblW "B" 0 46800 60 = some 2 ↔
        ∃ rb rc : ViewRow, isLatestAtOrBefore c4tblW "B" 0 (46800 - 3600) rb
          ∧ isExactAt c4tblW "B" 0 46800 rc
          ∧ rc.views - rb.views ≠ 0
          ∧ (2 : Rat) = round2 ((60 : Rat)
              / ((rc.views - rb.views : Int) : Rat)))) :=
  ⟨by decide, c4_comparison_ratio_amended c4tblW "B" 0 46800 60 2 (by decide)⟩

/-- C5: the intra-day gain of both services equals value minus the
previous sample's value when a previous sample exists and shares the date,
and is 0 otherwise, so the first sample of each calendar day restarts at
0; on the spec's example (D1, 23:59:59, 100) then (D2, 00:00:01, 101) the
second sample's gain is 0. -/
theorem c5_intra_day_gain_correct (tbl : List ViewRow) (v : String)
    (comp : Option String) (rows : List ViewRow) (i : Nat)
    (hi : i < rows.length) :
    ((App.process_view_gains tbl v comp rows).getD i
        defaultProcessed).view_gain
      = (if i = 0 then 0
         else if (rows.getD (i - 1) defaultViewRow).date
             = (rows.getD i defaultViewRow).date
           then (rows.getD i defaultViewRow).views
             - (rows.getD (i - 1) defaultViewRow).views
           else 0)
    ∧ ((Viewer.process_view_gains tbl v comp rows).getD i
        defaultProcessed).view_gain
      = (if i = 0 then 0
         else if (rows.getD (i - 1) defaultViewRow).date
             = (rows.getD i defaultViewRow).date
           then (rows.getD i defaultViewRow).views
             - (rows.getD (i - 1) defaultViewRow).views
           else 0)
    ∧ ((App.process_view_gains [] "A" none c5rows).getD 1
        defaultProcessed).view_gain = 0
    ∧ ((Viewer.process_view_gains [] "A" none c5rows).getD 1
        defaultProcessed).view_gain = 0 := by
  refine ⟨?_, ?_, by decide, by decide⟩
  · unfold App.process_view_gains
    rw [processAuxG_getD _ _ rows none i hi]
    cases i with
    | zero => simp [App.processOne]
    | succ j => simp [App.processOne]
  · unfold Viewer.process_view_gains
    rw [processAuxG_getD _ _ rows none i hi]
    cases i with
    | zero => simp [Viewer.processOne]
    | succ j => simp [Viewer.processOne]

/-- C5 witness: the intra-day gain property instantiated at index 1 of the
day-boundary example. -/
theorem c5_intra_day_gain_correct_witness :
    1 < c5rows.length
    ∧ (((App.process_view_gains [] "A" none c5rows).getD 1
          defaultProcessed).view_gain
        = (if (1 : Nat) = 0 then 0
           else if (c5rows.getD 0 defaultViewRow).date
               = (c5rows.getD 1 defaultViewRow).date
             then (c5rows.getD 1 defaultViewRow).views
               - (c5rows.getD 0 defaultViewRow).views
             else 0)
      ∧ ((Viewer.process_view_gains [] "A" none c5rows).getD 1
          defaultProcessed).view_gain
        = (if (1 : Nat) = 0 then 0
           else if (c5rows.getD 0 defaultViewRow).date
               = (c5rows.getD 1 defaultViewRow).date
             then (c5rows.getD 1 defaultViewRow).views
               - (c5rows.getD 0 defaultViewRow).views
             else 0)
      ∧ ((App.process_view_gains [] "A" none c5rows).getD 1
          defaultProcessed).view_gain = 0
      ∧ ((Viewer.process_view_gains [] "A" none c5rows).getD 1
          defaultProcessed).view_gain = 0) :=
  ⟨by decide, c5_intra_day_gain_correct [] "A" none c5rows 1 (by decide)⟩

/-- C2 witness: the amended insert semantics instantiated on the empty
table and a concrete row. -/
theorem c2_insert_idempotence_amended_witness :
    Viewer.insert_views (Viewer.insert_views [] c2row) c2row
        = Viewer.insert_views [] c2row
    ∧ countKey (Viewer.insert_views [] c2row) c2row.video_id c2row.timestamp
        = (if countKey [] c2row.video_id c2row.timestamp = 0 then 1
           else countKey [] c2row.video_id c2row.timestamp)
    ∧ countKey (App.insert_views (App.insert_views [] c2row) c2row)
        c2row.video_id c2row.timestamp
        = countKey [] c2row.video_id c2row.timestamp + 2 :=
  c2_insert_idempotence_amended [] c2row

/-- C10 witness: the error-atomicity property instantiated at a failing
INSERT on the empty table. -/
theorem c10_store_views_error_atomicity_witness :
    App.store_views_tx defaultViewRow true false []
      = Except.ok (if true || false then [] else [] ++ [defaultViewRow])
    ∧ Viewer.store_views_tx defaultViewRow true false []
      = Except.ok (if true || false then []
                   else Viewer.insert_views [] defaultViewRow) :=
  c10_store_views_error_atomicity defaultViewRow true false []
